import Mathlib

/-
Verification of the public-health job aggregation pipeline
(files app.py and app2.py of the repository).

The embedding models machine strings as Lean String values (lists of
characters), Python float scores as rationals, and network plus HTML
input as an explicit World of oracles: each adapter receives the data
the external site would have produced (or none for a request failure)
and is otherwise a pure function translated line by line from the
source.  Python round(x, 2) is modelled as round-half-up on rationals;
no reachable score value lies exactly halfway between two hundredths,
so the tie-breaking direction never matters.
-/

namespace JobSearch

/- Character-list helpers modelling Python string primitives. -/

def hasPrefixChars : List Char → List Char → Bool
  | [], _ => true
  | _ :: _, [] => false
  | a :: as, b :: bs => a == b && hasPrefixChars as bs

def containsSub : List Char → List Char → Bool
  | n, [] => hasPrefixChars n []
  | n, b :: bs => hasPrefixChars n (b :: bs) || containsSub n bs

/- Python str.lower for the ASCII texts handled by the program. -/
def strLower (s : String) : String := ⟨s.data.map Char.toLower⟩

/- Python str.startswith. -/
def pyStarts (p s : String) : Bool := hasPrefixChars p.data s.data

/- Python str.title: uppercase an alphabetic character that begins a
word, lowercase the others. -/
def pyTitleAux : List Char → Bool → List Char
  | [], _ => []
  | c :: t, startWord =>
    (if c.isAlpha then (if startWord then c.toUpper else c.toLower) else c)
      :: pyTitleAux t (!c.isAlpha)

def pyTitle (s : String) : String := ⟨pyTitleAux s.data true⟩

/- The canonical job record.  The two scoring fields are absent
(none) until filter_public_health_jobs assigns them, mirroring the
Python dict that gains the keys during scoring. -/
structure Job where
  title : String
  organization : String
  location : String
  url : String
  date_posted : String
  source : String
  scraped_at : String
  search_term : String
  is_recent : Bool
  relevance_score : Option ℚ := none
  is_public_health : Option Bool := none
deriving DecidableEq

/- is_recent_job from app.py lines 29-40 (identical in app2.py).
The none case and the empty string both fail the Python truthiness
test `if not date_text`. -/
def recent_indicators : List String :=
  ["hours ago", "hour ago", "today", "just now", "1 day ago", "yesterday"]

def is_recent_job (date_text : Option String) : Bool :=
  match date_text with
  | none => false
  | some s =>
    if s = "" then false
    else recent_indicators.any (fun p => containsSub p.data (strLower s).data)

/- filter_public_health_jobs, app.py lines 244-271.  The keyword list
is copied verbatim; note that "health" is listed twice. -/
def public_health_keywords : List String :=
  ["public health", "monitoring", "evaluation", "m&e", "data",
   "health", "strategic information", "commcare", "dhis2",
   "survey", "research", "impact assessment", "health program",
   "global health", "health systems", "epidemiology", "health",
   "maternal", "child health", "hiv", "tb", "malaria", "nutrition"]

def jobText (j : Job) : String := strLower (j.title ++ " " ++ j.organization)

def matchCount (j : Job) : Nat :=
  public_health_keywords.countP (fun k => containsSub k.data (jobText j).data)

def rawScore (j : Job) : ℚ :=
  (matchCount j : ℚ) / (public_health_keywords.length : ℚ)

/- Python round(x, 2): round to the nearest hundredth (half up; the
reachable inputs never produce a tie). -/
def ratFloor (q : ℚ) : ℤ := Int.fdiv q.num (q.den : ℤ)

def round2 (q : ℚ) : ℚ := (ratFloor (100 * q + 1/2) : ℚ) / 100

/- The per-record mutation performed by the scoring loop: both
branches assign relevance_score and is_public_health. -/
def scoreJob (j : Job) : Job :=
  { j with
    relevance_score := some (round2 (rawScore j))
    is_public_health := some (decide ((0.2 : ℚ) ≤ rawScore j)) }

/- The returned list: only records whose raw score reaches the 0.2
threshold are appended. -/
def filter_public_health_jobs (jobs : List Job) : List Job :=
  jobs.foldl
    (fun filtered job =>
      if (0.2 : ℚ) ≤ rawScore job then filtered ++ [scoreJob job] else filtered)
    []

/- Raw shapes delivered by the external sources, one constructor
field per piece of data that the source code reads defensively. -/

/- One item of the ReliefWeb API response (app.py lines 60-84).
sources holds the optional name of each entry of fields.source;
countries holds the (name-defaulted-to-empty) country names. -/
structure ApiItem where
  id : Nat
  title : Option String
  sources : List (Option String)
  countries : List String
  created : Option String
deriving DecidableEq

/- One article element of the ReliefWeb jobs HTML page (app.py lines
112-146).  titleLink is the h3 > a element: none when absent (the
entry is skipped), otherwise its text and optional href attribute. -/
structure RWHtmlElement where
  titleLink : Option (String × Option String)
  org : Option String
  country : Option String
  time : Option String
deriving DecidableEq

/- One candidate div of the Devex search page (app.py lines 173-205).
titleText is the text of the first h3 / h2 / a element if any;
linkHref is none when the element has no a sub-element, otherwise the
href attribute defaulted to the empty string. -/
structure DevexElement where
  titleText : Option String
  linkHref : Option String
deriving DecidableEq

/- Normalization of one API item, app.py lines 62-86. -/
def normalizeApiItem (now term : String) (item : ApiItem) : Job :=
  let org := match item.sources with
    | [] => "Unknown Organization"
    | s :: _ => s.getD "Unknown Organization"
  let joined := String.intercalate ", " item.countries
  let location := if joined = "" then "Multiple Locations" else joined
  let date_posted := item.created.getD "Unknown"
  { title := item.title.getD "No title"
    organization := org
    location := location
    url := "https://reliefweb.int/job/" ++ toString item.id
    date_posted := date_posted
    source := "reliefweb"
    scraped_at := now
    search_term := term
    is_recent := is_recent_job (some date_posted) }

/- Normalization of one ReliefWeb HTML article, app.py lines 114-145.
An entry without a title link is skipped; a present link with a
missing or empty href yields the empty url. -/
def normalizeRWHtml (now term : String) (e : RWHtmlElement) : Option Job :=
  match e.titleLink with
  | none => none
  | some (title, href) =>
    let url_path := href.getD ""
    let url := if url_path = "" then "" else "https://reliefweb.int" ++ url_path
    let date_posted := e.time.getD "Unknown"
    some
      { title := title
        organization := e.org.getD "Unknown Organization"
        location := e.country.getD "Multiple Locations"
        url := url
        date_posted := date_posted
        source := "reliefweb"
        scraped_at := now
        search_term := term
        is_recent := is_recent_job (some date_posted) }

/- Normalization of one Devex candidate, app.py lines 175-205.
Entries without a title element or with a title shorter than five
characters are skipped; a relative href is absolutized, a missing
link element leaves the url empty. -/
def normalizeDevex (now term : String) (e : DevexElement) : Option Job :=
  match e.titleText with
  | none => none
  | some title =>
    if title.length < 5 then none
    else
      let u := e.linkHref.getD ""
      let url := if u = "" then u
        else if pyStarts "http" u then u
        else "https://www.devex.com" ++ u
      some
        { title := title
          organization := "Development Organization"
          location := "Global"
          url := url
          date_posted := "Recent"
          source := "devex"
          scraped_at := now
          search_term := term
          is_recent := true }

/- The external world seen by one run: for each search term, the data
each HTTP endpoint would deliver, where none models a request or
parse failure, and the timestamp used for scraped_at. -/
structure World where
  now : String
  api : String → Option (List ApiItem)
  html : String → Option (List RWHtmlElement)
  devex : String → Option (List DevexElement)

/- scrape_reliefweb_api, app.py lines 42-97: the adapter catches its
own failures and returns the empty list; otherwise it considers only
the first max_jobs items. -/
def scrape_reliefweb_api (w : World) (term : String) (max_jobs : Nat := 20) :
    List Job :=
  match w.api term with
  | none => []
  | some items => (items.take max_jobs).map (normalizeApiItem w.now term)

/- scrape_reliefweb_html, app.py lines 99-155. -/
def scrape_reliefweb_html (w : World) (term : String) (max_jobs : Nat := 15) :
    List Job :=
  match w.html term with
  | none => []
  | some els => (els.take max_jobs).filterMap (normalizeRWHtml w.now term)

/- scrape_devex, app.py lines 157-214. -/
def scrape_devex (w : World) (term : String) (max_jobs : Nat := 15) :
    List Job :=
  match w.devex term with
  | none => []
  | some els => (els.take max_jobs).filterMap (normalizeDevex w.now term)

/- The reliefweb branch of scrape_development_sites, app.py lines
225-229: API first, HTML fallback only when the API produced nothing.
The second component counts how often the HTML strategy was run. -/
def scrape_reliefweb_combined (w : World) (term : String) : List Job × Nat :=
  let jobs := scrape_reliefweb_api w term
  if jobs = [] then (scrape_reliefweb_html w term, 1) else (jobs, 0)

/- scrape_development_sites, app.py lines 216-242.  Adapters are
invoked with their built-in default caps; unknown site tags are
skipped. -/
def scrape_development_sites (w : World) (term : String) (sites : List String) :
    List Job :=
  sites.foldl
    (fun all_jobs site =>
      if site = "reliefweb" then all_jobs ++ (scrape_reliefweb_combined w term).1
      else if site = "devex" then all_jobs ++ scrape_devex w term
      else all_jobs)
    []

/- The very first occurrence of each url wins: the dedup loop of
app.py lines 380-385, with the seen_urls set modelled as a list. -/
def dedupStep (acc : List Job × List String) (job : Job) : List Job × List String :=
  if job.url ∈ acc.2 then acc else (acc.1 ++ [job], job.url :: acc.2)

def dedupByUrl (jobs : List Job) : List Job :=
  (jobs.foldl dedupStep ([], [])).1

/- Recursive form of the same loop, used to reason about it. -/
def dedupAux : List Job → List String → List Job
  | [], _ => []
  | j :: rest, seen =>
    if j.url ∈ seen then dedupAux rest seen
    else j :: dedupAux rest (j.url :: seen)

/- The aggregation run of main, app.py lines 341-391: the two
configuration precondition checks, then per-term scrape + relevance
filter + accumulate, then dedup.  max_jobs_per_search is the slider
value received from the presentation layer. -/
def mainRun (w : World) (search_terms sites : List String)
    (_max_jobs_per_search : Nat) : Except String (List Job) :=
  if search_terms = [] then .error "Please select at least one search term."
  else if sites = [] then .error "Please select at least one website to scrape."
  else
    let all_jobs := search_terms.foldl
      (fun acc term =>
        acc ++ filter_public_health_jobs (scrape_development_sites w term sites))
      []
    .ok (dedupByUrl all_jobs)

namespace App2

/- The app2.py variant: same API adapter, but a request failure is
answered with three canned demonstration records (get_mock_jobs,
app2.py lines 93-130), and there is no HTML fallback. -/
structure World where
  now : String
  api : String → Option (List ApiItem)

def get_mock_jobs (now term : String) : List Job :=
  [{ title := "Public Health M&E Officer - " ++ pyTitle term
     organization := "World Health Organization"
     location := "Geneva, Switzerland"
     url := "https://reliefweb.int/job/example1"
     date_posted := "2 hours ago"
     source := "reliefweb"
     scraped_at := now
     search_term := term
     is_recent := true },
   { title := "Monitoring & Evaluation Specialist - " ++ pyTitle term
     organization := "UNICEF"
     location := "Multiple Locations"
     url := "https://reliefweb.int/job/example2"
     date_posted := "1 day ago"
     source := "reliefweb"
     scraped_at := now
     search_term := term
     is_recent := true },
   { title := "Health Data Analyst - " ++ pyTitle term
     organization := "International Rescue Committee"
     location := "New York, USA"
     url := "https://reliefweb.int/job/example3"
     date_posted := "3 days ago"
     source := "reliefweb"
     scraped_at := now
     search_term := term
     is_recent := false }]

/- scrape_reliefweb_api, app2.py lines 37-91: the except branch
returns the mock data. -/
def scrape_reliefweb_api (w : World) (term : String) (max_jobs : Nat := 20) :
    List Job :=
  match w.api term with
  | none => get_mock_jobs w.now term
  | some items => (items.take max_jobs).map (normalizeApiItem w.now term)

/- scrape_development_sites, app2.py lines 132-153: reliefweb is the
only recognized site and it has no fallback strategy. -/
def scrape_development_sites (w : World) (term : String) (sites : List String) :
    List Job :=
  sites.foldl
    (fun all_jobs site =>
      if site = "reliefweb" then all_jobs ++ scrape_reliefweb_api w term
      else all_jobs)
    []

end App2

/- Modelled from the spec: the scorer as section 4.4 of the spec words
it, for refinement comparison -- duplicates in the vocabulary count
only once toward the denominator. -/
def spec_vocab_size : Nat := (public_health_keywords.dedup).length

def spec_relevance_score (j : Job) : ℚ :=
  round2 ((matchCount j : ℚ) / (spec_vocab_size : ℚ))

/- Concrete inputs used by the counterexamples and witnesses below. -/

def hivJob : Job :=
  { title := "hiv", organization := "", location := "", url := "u",
    date_posted := "", source := "", scraped_at := "", search_term := "",
    is_recent := false }

def healthJob : Job :=
  { hivJob with title := "health" }

def cexApiItemChef : ApiItem :=
  { id := 101, title := some "Executive Chef", sources := [],
    countries := [], created := none }

def cexWorldC1 : World :=
  { now := "", api := fun _ => some [cexApiItemChef],
    html := fun _ => none, devex := fun _ => none }

def wFailAll : World :=
  { now := "", api := fun _ => none, html := fun _ => none,
    devex := fun _ => none }

def wApiFail : App2.World := { now := "", api := fun _ => none }

def devexNoLink : DevexElement :=
  { titleText := some "Health Officer Role", linkHref := none }

def wDevexNoLink : World :=
  { now := "", api := fun _ => none, html := fun _ => none,
    devex := fun _ => some [devexNoLink] }

def apiItemWit : ApiItem :=
  { id := 7,
    title := some "Public Health Data Monitoring and Evaluation Officer",
    sources := [some "WHO"], countries := ["Kenya"],
    created := some "2 hours ago" }

def wWit : World :=
  { now := "t0", api := fun _ => some [apiItemWit],
    html := fun _ => none, devex := fun _ => none }

def witJobRaw : Job := normalizeApiItem "t0" "public health" apiItemWit

def rwLinked : RWHtmlElement :=
  { titleLink := some ("Health Officer", some "/job/12345"), org := none,
    country := none, time := none }

def rwLinkedJob : Job :=
  { title := "Health Officer", organization := "Unknown Organization",
    location := "Multiple Locations", url := "https://reliefweb.int/job/12345",
    date_posted := "Unknown", source := "reliefweb", scraped_at := "",
    search_term := "t", is_recent := false }

def devexLinked : DevexElement :=
  { titleText := some "Health Officer Role", linkHref := some "/jobs/99" }

def devexLinkedJob : Job :=
  { title := "Health Officer Role", organization := "Development Organization",
    location := "Global", url := "https://www.devex.com/jobs/99",
    date_posted := "Recent", source := "devex", scraped_at := "",
    search_term := "t", is_recent := true }

def wA : World :=
  { now := "a", api := fun _ => none, html := fun _ => none,
    devex := fun _ => none }

def wB : World :=
  { now := "b", api := fun _ => some [apiItemWit], html := fun _ => none,
    devex := fun _ => none }

/- Helper lemmas. -/

theorem hasPrefixChars_iff (n : List Char) : ∀ h : List Char,
    hasPrefixChars n h = true ↔ ∃ r, h = n ++ r := by
  induction n with
  | nil => intro h; simp [hasPrefixChars]
  | cons a as ih =>
    intro h
    cases h with
    | nil =>
      simp only [hasPrefixChars, List.cons_append]
      constructor
      · intro hc; exact absurd hc (by simp)
      · rintro ⟨r, hr⟩; exact absurd hr (by simp)
    | cons b bs =>
      simp only [hasPrefixChars, Bool.and_eq_true, beq_iff_eq, ih,
        List.cons_append, List.cons.injEq]
      constructor
      · rintro ⟨hab, r, hr⟩; exact ⟨r, hab.symm, hr⟩
      · rintro ⟨r, hba, hr⟩; exact ⟨hba.symm, r, hr⟩

theorem containsSub_iff (n : List Char) : ∀ h : List Char,
    containsSub n h = true ↔ ∃ l r, h = l ++ n ++ r := by
  intro h
  induction h with
  | nil =>
    simp only [containsSub, hasPrefixChars_iff]
    constructor
    · rintro ⟨r, hr⟩
      exact ⟨[], r, by simpa using hr⟩
    · rintro ⟨l, r, hr⟩
      have hl : l = [] ∧ n ++ r = [] := by
        simpa using hr.symm
      have hn : n = [] ∧ r = [] := by simpa using hl.2
      exact ⟨[], by simp [hn.1, hn.2]⟩
  | cons b bs ih =>
    simp only [containsSub, Bool.or_eq_true, hasPrefixChars_iff, ih]
    constructor
    · rintro (⟨r, hr⟩ | ⟨l, r, hr⟩)
      · exact ⟨[], r, by simpa using hr⟩
      · exact ⟨b :: l, r, by simp [hr]⟩
    · rintro ⟨l, r, hr⟩
      cases l with
      | nil => exact Or.inl ⟨r, by simpa using hr⟩
      | cons c l =>
        have h2 : b = c ∧ bs = l ++ n ++ r := by
          simpa using hr
        exact Or.inr ⟨l, r, h2.2⟩

theorem strData_append (a b : String) : (a ++ b).data = a.data ++ b.data := rfl

theorem pyStarts_of_append (p a b : String) (h : ∃ t, a.data = p.data ++ t) :
    pyStarts p (a ++ b) = true := by
  obtain ⟨t, ht⟩ := h
  unfold pyStarts
  rw [strData_append, ht, List.append_assoc, hasPrefixChars_iff]
  exact ⟨t ++ b.data, rfl⟩

theorem foldl_dedupStep (jobs : List Job) : ∀ (acc : List Job) (seen : List String),
    (jobs.foldl dedupStep (acc, seen)).1 = acc ++ dedupAux jobs seen := by
  induction jobs with
  | nil => intro acc seen; simp [dedupAux]
  | cons j rest ih =>
    intro acc seen
    by_cases h : j.url ∈ seen
    · simp [dedupStep, dedupAux, h, ih]
    · simp [dedupStep, dedupAux, h, ih]

theorem dedupByUrl_eq (jobs : List Job) : dedupByUrl jobs = dedupAux jobs [] := by
  have := foldl_dedupStep jobs [] []
  simpa [dedupByUrl] using this

theorem dedupAux_filter (u : String) : ∀ (jobs : List Job) (seen : List String),
    (dedupAux jobs seen).filter (fun j => j.url == u)
      = if u ∈ seen then [] else (jobs.filter (fun j => j.url == u)).take 1 := by
  intro jobs
  induction jobs with
  | nil =>
    intro seen
    by_cases h : u ∈ seen <;> simp [dedupAux, h]
  | cons j rest ih =>
    intro seen
    by_cases hj : j.url ∈ seen
    · by_cases hu : j.url = u
      · have hus : u ∈ seen := hu ▸ hj
        simp [dedupAux, hj, ih, hus]
      · have hne : ¬ (j.url == u) = true := by simpa using hu
        simp [dedupAux, hj, ih, List.filter_cons, hne]
    · by_cases hu : j.url = u
      · subst hu
        have hmem : j.url ∈ j.url :: seen := List.mem_cons_self _ _
        simp [dedupAux, hj, ih, List.filter_cons, hmem]
      · have hne : ¬ (j.url == u) = true := by simpa using hu
        have hmem : (u ∈ j.url :: seen) ↔ (u ∈ seen) := by
          constructor
          · intro hm
            rcases List.mem_cons.mp hm with hm | hm
            · exact absurd hm.symm hu
            · exact hm
          · exact fun hm => List.mem_cons_of_mem _ hm
        by_cases hus : u ∈ seen
        · simp [dedupAux, hj, ih, List.filter_cons, hne, hus, hmem.mpr hus]
        · have : ¬ u ∈ j.url :: seen := fun h => hus (hmem.mp h)
          simp [dedupAux, hj, ih, List.filter_cons, hne, hus, this]

theorem mem_dedupAux {j : Job} : ∀ {jobs : List Job} {seen : List String},
    j ∈ dedupAux jobs seen → j ∈ jobs := by
  intro jobs
  induction jobs with
  | nil => intro seen h; simp [dedupAux] at h
  | cons a rest ih =>
    intro seen h
    by_cases ha : a.url ∈ seen
    · simp only [dedupAux, if_pos ha] at h
      exact List.mem_cons_of_mem _ (ih h)
    · simp only [dedupAux, if_neg ha, List.mem_cons] at h
      rcases h with h | h
      · exact h ▸ List.mem_cons_self _ _
      · exact List.mem_cons_of_mem _ (ih h)

theorem mem_dedupByUrl {j : Job} {jobs : List Job} (h : j ∈ dedupByUrl jobs) :
    j ∈ jobs := by
  rw [dedupByUrl_eq] at h
  exact mem_dedupAux h

theorem filter_ph_aux (jobs : List Job) : ∀ acc : List Job,
    jobs.foldl
      (fun filtered job =>
        if (0.2 : ℚ) ≤ rawScore job then filtered ++ [scoreJob job] else filtered)
      acc
    = acc ++ (jobs.map scoreJob).filter (fun s => s.is_public_health == some true) := by
  induction jobs with
  | nil => intro acc; simp
  | cons j rest ih =>
    intro acc
    by_cases h : (0.2 : ℚ) ≤ rawScore j
    · simp only [List.foldl_cons, if_pos h, List.map_cons, List.filter_cons]
      rw [ih]
      have hp : ((scoreJob j).is_public_health == some true) = true := by
        simp [scoreJob, h]
      simp [hp]
    · simp only [List.foldl_cons, if_neg h, List.map_cons, List.filter_cons]
      rw [ih]
      have hp : ((scoreJob j).is_public_health == some true) = false := by
        simp [scoreJob, h]
      simp [hp]

theorem filter_ph_eq (jobs : List Job) :
    filter_public_health_jobs jobs
      = (jobs.map scoreJob).filter (fun s => s.is_public_health == some true) := by
  have := filter_ph_aux jobs []
  simpa [filter_public_health_jobs] using this

theorem mem_filter_ph {j : Job} {jobs : List Job}
    (h : j ∈ filter_public_health_jobs jobs) :
    ∃ x ∈ jobs, j = scoreJob x ∧ (0.2 : ℚ) ≤ rawScore x := by
  rw [filter_ph_eq] at h
  obtain ⟨hmem, hflag⟩ := List.mem_filter.mp h
  obtain ⟨x, hx, hxj⟩ := List.mem_map.mp hmem
  refine ⟨x, hx, hxj.symm, ?_⟩
  have : (scoreJob x).is_public_health = some true := by
    have := hflag
    rw [← hxj] at this
    simpa using this
  have hdec : decide ((0.2 : ℚ) ≤ rawScore x) = true := by
    simpa [scoreJob] using this
  exact of_decide_eq_true hdec

theorem rawScore_scoreJob (x : Job) : rawScore (scoreJob x) = rawScore x := rfl

theorem mem_accum (f : String → List Job) (j : Job) :
    ∀ (terms : List String) (init : List Job),
      j ∈ terms.foldl (fun acc t => acc ++ f t) init →
      j ∈ init ∨ ∃ t ∈ terms, j ∈ f t := by
  intro terms
  induction terms with
  | nil => intro init h; exact Or.inl (by simpa using h)
  | cons t rest ih =>
    intro init h
    rcases ih (init ++ f t) h with h2 | ⟨t2, ht2, hj⟩
    · rcases List.mem_append.mp h2 with h3 | h3
      · exact Or.inl h3
      · exact Or.inr ⟨t, List.mem_cons_self _ _, h3⟩
    · exact Or.inr ⟨t2, List.mem_cons_of_mem _ ht2, hj⟩

theorem threshold_cases : ∀ m : Fin 24,
    (((0.2 : ℚ) ≤ (m.val : ℚ) / 23) ↔ ((0.2 : ℚ) ≤ round2 ((m.val : ℚ) / 23)))
    ∧ 0 ≤ round2 ((m.val : ℚ) / 23) ∧ round2 ((m.val : ℚ) / 23) ≤ 1 := by
  with_unfolding_all decide

theorem matchCount_le (j : Job) : matchCount j ≤ 23 := by
  have h := List.length_filter_le
    (fun k => containsSub k.data (jobText j).data) public_health_keywords
  have hc : matchCount j
      = (public_health_keywords.filter
          (fun k => containsSub k.data (jobText j).data)).length := by
    simp [matchCount, List.countP_eq_length_filter]
  have h23 : public_health_keywords.length = 23 := rfl
  omega

theorem rawScore_eq (j : Job) : rawScore j = (matchCount j : ℚ) / 23 := by
  have hlen : public_health_keywords.length = 23 := rfl
  rw [rawScore, hlen]
  norm_num

theorem threshold_nat (m : Nat) (hm : m ≤ 23) :
    (((0.2 : ℚ) ≤ (m : ℚ) / 23) ↔ ((0.2 : ℚ) ≤ round2 ((m : ℚ) / 23)))
    ∧ 0 ≤ round2 ((m : ℚ) / 23) ∧ round2 ((m : ℚ) / 23) ≤ 1 := by
  have h := threshold_cases ⟨m, by omega⟩
  exact h

theorem normalizeApiItem_url (now term : String) (item : ApiItem) :
    pyStarts "http" (normalizeApiItem now term item).url = true := by
  show pyStarts "http" ("https://reliefweb.int/job/" ++ toString item.id) = true
  exact pyStarts_of_append _ _ _ ⟨"s://reliefweb.int/job/".data, by decide⟩

theorem prefixed_ne_empty (a u : String) (ha : a.data ≠ []) : a ++ u ≠ "" := by
  intro h
  have hd : (a ++ u).data = ("" : String).data := by rw [h]
  rw [strData_append] at hd
  have h0 : ("" : String).data = [] := rfl
  rw [h0] at hd
  exact ha (List.append_eq_nil.mp hd).1

theorem normalizeRWHtml_url (now term : String) (e : RWHtmlElement)
    (t : String) (href : Option String) (j : Job)
    (htl : e.titleLink = some (t, href))
    (h : normalizeRWHtml now term e = some j) :
    (j.url = "" ↔ href.getD "" = "")
    ∧ (href.getD "" ≠ "" → pyStarts "http" j.url = true) := by
  have hj := Option.some.inj (by simpa [normalizeRWHtml, htl] using h)
  by_cases hp : href.getD "" = ""
  · refine ⟨?_, fun hne => absurd hp hne⟩
    rw [← hj]
    simp [hp]
  · constructor
    · rw [← hj]
      simp only [if_neg hp]
      exact ⟨fun he =>
          absurd he (prefixed_ne_empty "https://reliefweb.int" _ (by decide)),
        fun hc => absurd hc hp⟩
    · intro _
      rw [← hj]
      simp only [if_neg hp]
      exact pyStarts_of_append _ _ _ ⟨"s://reliefweb.int".data, by decide⟩

theorem normalizeDevex_url (now term : String) (e : DevexElement) (j : Job)
    (h : normalizeDevex now term e = some j) :
    (j.url = "" ↔ e.linkHref.getD "" = "")
    ∧ (e.linkHref.getD "" ≠ "" → pyStarts "http" j.url = true) := by
  obtain ⟨tt, lh⟩ := e
  cases tt with
  | none => simp [normalizeDevex] at h
  | some title =>
    by_cases hlen : title.length < 5
    · simp [normalizeDevex, hlen] at h
    · have hj := Option.some.inj (by simpa [normalizeDevex, hlen] using h)
      show (j.url = "" ↔ lh.getD "" = "") ∧ (lh.getD "" ≠ "" → pyStarts "http" j.url = true)
      by_cases hu : lh.getD "" = ""
      · refine ⟨?_, fun hne => absurd hu hne⟩
        rw [← hj]
        simp [hu]
      · by_cases hh : pyStarts "http" (lh.getD "") = true
        · constructor
          · rw [← hj]
            simp only [if_neg hu, if_pos hh]
          · intro _
            rw [← hj]
            simp only [if_neg hu, if_pos hh]
            exact hh
        · constructor
          · rw [← hj]
            simp only [if_neg hu, if_neg hh]
            exact ⟨fun he =>
                absurd he (prefixed_ne_empty "https://www.devex.com" _ (by decide)),
              fun hc => absurd hc hu⟩
          · intro _
            rw [← hj]
            simp only [if_neg hu, if_neg hh]
            exact pyStarts_of_append _ _ _ ⟨"s://www.devex.com".data, by decide⟩

theorem scrape_api_mem_url (w : World) (term : String) (j : Job)
    (h : j ∈ scrape_reliefweb_api w term) : pyStarts "http" j.url = true := by
  unfold scrape_reliefweb_api at h
  cases hw : w.api term with
  | none => rw [hw] at h; simp at h
  | some items =>
    rw [hw] at h
    obtain ⟨item, _, hitem⟩ := List.mem_map.mp h
    rw [← hitem]
    exact normalizeApiItem_url w.now term item

theorem scrape_html_mem_url (w : World) (term : String) (j : Job)
    (h : j ∈ scrape_reliefweb_html w term) :
    j.url = "" ∨ pyStarts "http" j.url = true := by
  unfold scrape_reliefweb_html at h
  cases hw : w.html term with
  | none => rw [hw] at h; simp at h
  | some els =>
    rw [hw] at h
    obtain ⟨e, _, he⟩ := List.mem_filterMap.mp h
    rcases htl : e.titleLink with _ | ⟨t, href⟩
    · have he2 := he
      simp [normalizeRWHtml, htl] at he2
    · have hl := normalizeRWHtml_url w.now term e t href j htl he
      by_cases hp : href.getD "" = ""
      · exact Or.inl (hl.1.mpr hp)
      · exact Or.inr (hl.2 hp)

theorem scrape_devex_mem_url (w : World) (term : String) (j : Job)
    (h : j ∈ scrape_devex w term) :
    j.url = "" ∨ pyStarts "http" j.url = true := by
  unfold scrape_devex at h
  cases hw : w.devex term with
  | none => rw [hw] at h; simp at h
  | some els =>
    rw [hw] at h
    obtain ⟨e, _, he⟩ := List.mem_filterMap.mp h
    have hl := normalizeDevex_url w.now term e j he
    by_cases hp : e.linkHref.getD "" = ""
    · exact Or.inl (hl.1.mpr hp)
    · exact Or.inr (hl.2 hp)

/- Claim theorems. -/

/-- C1 counterexample: a record that is normalized with a distinct URL but
scores below 0.2 (relevance_score 0) is produced by the adapters yet is
absent from the aggregated output, so the returned sequence is not
unfiltered by relevance. -/
theorem relevance_dropped_before_output :
    (scrape_development_sites cexWorldC1 "public health" ["reliefweb"]).map
        (fun j => j.url)
      = ["https://reliefweb.int/job/101"]
    ∧ mainRun cexWorldC1 ["public health"] ["reliefweb"] 15 = .ok [] := by
  constructor
  · rfl
  · with_unfolding_all rfl

/-- C1 amended: the aggregation pipeline filters by relevance internally --
every record of a successful run's output carries is_public_health = true,
an attached relevance_score, and a raw score of at least 0.2; records below
the threshold are dropped inside the pipeline, before deduplication. -/
theorem pipeline_output_flagged (w : World) (terms sites : List String)
    (cap : Nat) (out : List Job) (hout : mainRun w terms sites cap = .ok out) :
    ∀ j ∈ out, j.is_public_health = some true ∧ (0.2 : ℚ) ≤ rawScore j
      ∧ ∃ q, j.relevance_score = some q := by
  intro j hj
  by_cases ht : terms = []
  · simp [mainRun, ht] at hout
  · by_cases hs : sites = []
    · simp [mainRun, ht, hs] at hout
    · have hout2 := hout
      simp only [mainRun, if_neg ht, if_neg hs, Except.ok.injEq] at hout2
      rw [← hout2] at hj
      have hj2 := mem_dedupByUrl hj
      rcases mem_accum
          (fun term => filter_public_health_jobs (scrape_development_sites w term sites))
          j terms [] hj2 with h0 | ⟨t, _, hjf⟩
      · simp at h0
      · obtain ⟨x, _, hxe, hxs⟩ := mem_filter_ph hjf
        subst hxe
        refine ⟨by simp [scoreJob, hxs], ?_, ⟨_, rfl⟩⟩
        rw [rawScore_scoreJob]
        exact hxs

/-- C1 amended witness: a passing record flows through the pipeline and the
amended theorem applies to it. -/
theorem pipeline_output_flagged_witness :
    (scoreJob witJobRaw).is_public_health = some true
    ∧ (0.2 : ℚ) ≤ rawScore (scoreJob witJobRaw)
    ∧ ∃ q, (scoreJob witJobRaw).relevance_score = some q :=
  pipeline_output_flagged wWit ["public health"] ["reliefweb"] 15
    [scoreJob witJobRaw] (by with_unfolding_all rfl) (scoreJob witJobRaw)
    (List.mem_singleton.mpr rfl)

/-- C2 counterexample: for a record whose text matches exactly one keyword,
the stored relevance_score is round2 (1 / 23) = 0.04, whereas the claimed
formula (duplicates counted only once toward the denominator, size 22)
yields round2 (1 / 22) = 0.05. -/
theorem score_denominator_cex :
    (scoreJob hivJob).relevance_score = some (1/25)
    ∧ spec_relevance_score hivJob = 1/20
    ∧ (1/25 : ℚ) ≠ 1/20 := by
  refine ⟨?_, ?_, ?_⟩ <;> with_unfolding_all decide

/-- C2 amended: relevance_score is match_count / 23 rounded to 2 decimal
places, where 23 is the full length of the vocabulary list with the
duplicated entry counted per occurrence (deduplicated size is 22), and a
duplicated vocabulary entry increments the match count once per listed
occurrence (the text "health" scores 2 matches). -/
theorem score_uses_full_vocab_length (j : Job) :
    (scoreJob j).relevance_score = some (round2 ((matchCount j : ℚ) / 23))
    ∧ public_health_keywords.length = 23
    ∧ (public_health_keywords.dedup).length = 22
    ∧ matchCount healthJob = 2 := by
  refine ⟨?_, rfl, by with_unfolding_all decide, by decide⟩
  simp [scoreJob, rawScore_eq]

/-- C3: deduplication by url keeps exactly the first occurrence per
distinct URL in accumulation order -- the deduplicated list restricted to
any url equals the first element of the input restricted to that url, so
later duplicates are dropped entirely. -/
theorem dedup_keeps_first_occurrence (jobs : List Job) (u : String) :
    (dedupByUrl jobs).filter (fun j => j.url == u)
      = (jobs.filter (fun j => j.url == u)).take 1 := by
  rw [dedupByUrl_eq, dedupAux_filter]
  simp

/-- C4: every record passing through the relevance scorer gets a stored
relevance_score q with 0 ≤ q ≤ 1, and its is_public_health flag is true
exactly when the stored (rounded) score is at least 0.2. -/
theorem scored_record_invariant (j : Job) :
    ∃ q, (scoreJob j).relevance_score = some q ∧ 0 ≤ q ∧ q ≤ 1
      ∧ ((scoreJob j).is_public_health = some true ↔ (0.2 : ℚ) ≤ q) := by
  obtain ⟨hiff, h0, h1⟩ := threshold_nat (matchCount j) (matchCount_le j)
  have heq : rawScore j = (matchCount j : ℚ) / 23 := rawScore_eq j
  refine ⟨round2 (rawScore j), rfl, by rw [heq]; exact h0, by rw [heq]; exact h1, ?_⟩
  constructor
  · intro hsome
    have hd : decide ((0.2 : ℚ) ≤ rawScore j) = true := by
      simpa [scoreJob] using hsome
    have hraw := of_decide_eq_true hd
    rw [heq]
    exact hiff.mp (heq ▸ hraw)
  · intro hq
    have hraw : (0.2 : ℚ) ≤ rawScore j := by
      rw [heq]
      exact hiff.mpr (by rw [← heq]; exact hq)
    simp [scoreJob, hraw]

/-- C5: the recency classifier returns false for null and empty input, and
for nonempty input it returns true exactly when one of the six fixed
phrases occurs as a substring of the lower-cased text. -/
theorem recency_substring_spec :
    is_recent_job none = false ∧ is_recent_job (some "") = false
    ∧ ∀ s : String, s ≠ "" →
      (is_recent_job (some s) = true ↔
        ∃ p ∈ recent_indicators, ∃ l r, (strLower s).data = l ++ p.data ++ r) := by
  refine ⟨rfl, by simp [is_recent_job], ?_⟩
  intro s hs
  simp only [is_recent_job, if_neg hs, List.any_eq_true]
  constructor
  · rintro ⟨p, hp, hc⟩
    exact ⟨p, hp, (containsSub_iff _ _).mp hc⟩
  · rintro ⟨p, hp, l, r, hlr⟩
    exact ⟨p, hp, (containsSub_iff _ _).mpr ⟨l, r, hlr⟩⟩

/-- C5 witness: "2 Hours Ago" is nonempty and contains the phrase
"hours ago" case-insensitively, so it is classified recent. -/
theorem recency_substring_spec_witness :
    is_recent_job (some "2 Hours Ago") = true :=
  (recency_substring_spec.2.2 "2 Hours Ago" (by decide)).mpr
    ⟨"hours ago", by decide, "2 ".data, [], by decide⟩

/-- C6 counterexample: in the app2.py variant a total API failure does not
yield zero records and no HTML fallback runs -- three fabricated mock
records are returned instead. -/
theorem mock_jobs_on_failure_cex :
    (App2.scrape_development_sites wApiFail "health data" ["reliefweb"]).length = 3
    ∧ (App2.scrape_development_sites wApiFail "health data" ["reliefweb"]).map
        (fun j => j.url)
      = ["https://reliefweb.int/job/example1", "https://reliefweb.int/job/example2",
         "https://reliefweb.int/job/example3"] := by
  constructor <;> rfl

/-- C6 amended: in app.py the HTML fallback runs exactly once when the API
strategy yields nothing, does not run otherwise, and a total failure of
both strategies yields zero records for the pair without any exception; in
app2.py (see the counterexample) an API failure instead yields three mock
records and no HTML fallback exists. -/
theorem reliefweb_fallback_behavior (w : World) (term : String) :
    (scrape_reliefweb_api w term = [] →
      scrape_reliefweb_combined w term = (scrape_reliefweb_html w term, 1))
    ∧ (scrape_reliefweb_api w term ≠ [] →
      scrape_reliefweb_combined w term = (scrape_reliefweb_api w term, 0))
    ∧ (scrape_reliefweb_api w term = [] → scrape_reliefweb_html w term = [] →
      scrape_development_sites w term ["reliefweb"] = []) := by
  refine ⟨?_, ?_, ?_⟩
  · intro h
    simp [scrape_reliefweb_combined, h]
  · intro h
    simp [scrape_reliefweb_combined, h]
  · intro h1 h2
    simp [scrape_development_sites, scrape_reliefweb_combined, h1, h2]

/-- C6 amended witness: with every strategy failing, the reliefweb pair
yields zero records. -/
theorem reliefweb_fallback_behavior_witness :
    scrape_development_sites wFailAll "m&e" ["reliefweb"] = [] :=
  (reliefweb_fallback_behavior wFailAll "m&e").2.2 rfl rfl

/-- C7 counterexample: a Devex entry whose link sub-element is missing is
kept with an empty url, refuting that every adapter record has a non-empty
absolute url. -/
theorem adapter_url_empty_cex :
    (scrape_devex wDevexNoLink "health").map (fun j => j.url) = [""]
    ∧ (scrape_devex wDevexNoLink "health").length = 1 := by
  constructor <;> rfl

/-- C7 amended: every record produced by any adapter has a url that either
starts with "http" or is the empty string; the API adapter's urls always
start with "http" (absolute); and for each HTML-scrape strategy a kept
record's url is empty exactly when the entry's link is missing or empty,
and starts with "http" (absolute) whenever the link is present and
nonempty. -/
theorem adapter_url_shape :
    (∀ (w : World) (term : String) (j : Job),
       (j ∈ scrape_reliefweb_api w term ∨ j ∈ scrape_reliefweb_html w term
         ∨ j ∈ scrape_devex w term) →
       j.url = "" ∨ pyStarts "http" j.url = true)
    ∧ (∀ (w : World) (term : String) (j : Job),
       j ∈ scrape_reliefweb_api w term → pyStarts "http" j.url = true)
    ∧ (∀ (now term : String) (e : RWHtmlElement) (t : String)
         (href : Option String) (j : Job),
       e.titleLink = some (t, href) → normalizeRWHtml now term e = some j →
       (j.url = "" ↔ href.getD "" = "")
       ∧ (href.getD "" ≠ "" → pyStarts "http" j.url = true))
    ∧ (∀ (now term : String) (e : DevexElement) (j : Job),
       normalizeDevex now term e = some j →
       (j.url = "" ↔ e.linkHref.getD "" = "")
       ∧ (e.linkHref.getD "" ≠ "" → pyStarts "http" j.url = true)) := by
  refine ⟨?_, scrape_api_mem_url, normalizeRWHtml_url, normalizeDevex_url⟩
  intro w term j h
  rcases h with h | h | h
  · exact Or.inr (scrape_api_mem_url w term j h)
  · exact scrape_html_mem_url w term j h
  · exact scrape_devex_mem_url w term j h

/-- C7 amended witness: the amended theorem applied to a concrete API
record, a ReliefWeb HTML entry with a present nonempty link, and a Devex
entry with a present nonempty relative link, yielding absolute urls in all
three cases. -/
theorem adapter_url_shape_witness :
    (witJobRaw.url = "" ∨ pyStarts "http" witJobRaw.url = true)
    ∧ pyStarts "http" witJobRaw.url = true
    ∧ pyStarts "http" rwLinkedJob.url = true
    ∧ pyStarts "http" devexLinkedJob.url = true := by
  refine ⟨?_, ?_, ?_, ?_⟩
  · exact adapter_url_shape.1 wWit "public health" witJobRaw
      (Or.inl (by with_unfolding_all decide))
  · exact adapter_url_shape.2.1 wWit "public health" witJobRaw
      (by with_unfolding_all decide)
  · exact (adapter_url_shape.2.2.1 "" "t" rwLinked "Health Officer"
      (some "/job/12345") rwLinkedJob rfl rfl).2 (by decide)
  · exact (adapter_url_shape.2.2.2 "" "t" devexLinked devexLinkedJob rfl).2
      (by decide)

/-- C8: the run refuses exactly when no search terms or no sites are
selected, and in that case the result is independent of the external world,
so the error is raised before any adapter invocation or network activity. -/
theorem config_precondition (w w' : World) (terms sites : List String) (cap : Nat) :
    ((∃ e, mainRun w terms sites cap = .error e) ↔ (terms = [] ∨ sites = []))
    ∧ (terms = [] ∨ sites = [] →
        mainRun w terms sites cap = mainRun w' terms sites cap) := by
  constructor
  · constructor
    · rintro ⟨e, he⟩
      by_cases ht : terms = []
      · exact Or.inl ht
      · by_cases hs : sites = []
        · exact Or.inr hs
        · simp [mainRun, ht, hs] at he
    · intro h
      rcases h with ht | hs
      · exact ⟨"Please select at least one search term.", by simp [mainRun, ht]⟩
      · by_cases ht : terms = []
        · exact ⟨"Please select at least one search term.", by simp [mainRun, ht]⟩
        · exact ⟨"Please select at least one website to scrape.",
            by simp [mainRun, ht, hs]⟩
  · intro h
    rcases h with ht | hs
    · simp [mainRun, ht]
    · by_cases ht : terms = []
      · simp [mainRun, ht]
      · simp [mainRun, ht, hs]

/-- C8 witness: with no search terms selected, two runs against different
worlds coincide -- no adapter is consulted. -/
theorem config_precondition_witness :
    mainRun wA [] ["reliefweb"] 15 = mainRun wB [] ["reliefweb"] 15 :=
  (config_precondition wA wB [] ["reliefweb"] 15).2 (Or.inl rfl)

/-- C9: the caller-supplied per-query cap is never passed to the adapters:
the pipeline result is independent of it, and each adapter considers at
most its built-in default number of raw entries (20 for the structured API,
15 for the HTML and devex scrape paths), the entries beyond that default
cap being irrelevant. -/
theorem caller_cap_not_used :
    (∀ (w : World) (terms sites : List String) (c c' : Nat),
       mainRun w terms sites c = mainRun w terms sites c')
    ∧ (∀ (w : World) (term : String),
       (scrape_reliefweb_api w term).length ≤ 20
       ∧ (scrape_reliefweb_html w term).length ≤ 15
       ∧ (scrape_devex w term).length ≤ 15)
    ∧ (∀ (w : World) (term : String),
       scrape_reliefweb_api w term
         = scrape_reliefweb_api
             { w with api := fun t => (w.api t).map (fun l => l.take 20) } term
       ∧ scrape_reliefweb_html w term
         = scrape_reliefweb_html
             { w with html := fun t => (w.html t).map (fun l => l.take 15) } term
       ∧ scrape_devex w term
         = scrape_devex
             { w with devex := fun t => (w.devex t).map (fun l => l.take 15) } term) := by
  refine ⟨fun w terms sites c c' => rfl, fun w term => ⟨?_, ?_, ?_⟩,
    fun w term => ⟨?_, ?_, ?_⟩⟩
  · unfold scrape_reliefweb_api
    cases w.api term with
    | none => simp
    | some items =>
      simp only [List.length_map, List.length_take]
      omega
  · unfold scrape_reliefweb_html
    cases w.html term with
    | none => simp
    | some els =>
      have h1 := List.length_filterMap_le (normalizeRWHtml w.now term) (els.take 15)
      have h2 : (els.take 15).length ≤ 15 := by
        simp only [List.length_take]
        omega
      show (List.filterMap (normalizeRWHtml w.now term) (els.take 15)).length ≤ 15
      omega
  · unfold scrape_devex
    cases w.devex term with
    | none => simp
    | some els =>
      have h1 := List.length_filterMap_le (normalizeDevex w.now term) (els.take 15)
      have h2 : (els.take 15).length ≤ 15 := by
        simp only [List.length_take]
        omega
      show (List.filterMap (normalizeDevex w.now term) (els.take 15)).length ≤ 15
      omega
  · unfold scrape_reliefweb_api
    cases hw : w.api term <;> simp [hw, List.take_take]
  · unfold scrape_reliefweb_html
    cases hw : w.html term <;> simp [hw, List.take_take]
  · unfold scrape_devex
    cases hw : w.devex term <;> simp [hw, List.take_take]

/-- C10: the scoring pass rewrites every input record to its scored form,
setting exactly the two fields relevance_score and is_public_health and
leaving all other fields unchanged; the returned list is the flagged subset
of the scored records, so failing records are scored too but excluded from
the return value. -/
theorem filter_frame_effect :
    (∀ jobs : List Job,
       filter_public_health_jobs jobs
         = (jobs.map scoreJob).filter (fun s => s.is_public_health == some true))
    ∧ (∀ j : Job,
       (scoreJob j).title = j.title
       ∧ (scoreJob j).organization = j.organization
       ∧ (scoreJob j).location = j.location
       ∧ (scoreJob j).url = j.url
       ∧ (scoreJob j).date_posted = j.date_posted
       ∧ (scoreJob j).source = j.source
       ∧ (scoreJob j).scraped_at = j.scraped_at
       ∧ (scoreJob j).search_term = j.search_term
       ∧ (scoreJob j).is_recent = j.is_recent
       ∧ (scoreJob j).relevance_score = some (round2 (rawScore j))
       ∧ (scoreJob j).is_public_health = some (decide ((0.2 : ℚ) ≤ rawScore j))) :=
  ⟨filter_ph_eq,
   fun _ => ⟨rfl, rfl, rfl, rfl, rfl, rfl, rfl, rfl, rfl, rfl, rfl⟩⟩

end JobSearch
